import Mathlib

/-!
Verification of the markdown-to-document pipeline of `pdf-generator-mcp`
(`src/pdf.py`).  The source is embedded shallowly: lines are lists of
characters, Python's `str.strip` / `str.split` / `re` idioms become explicit
executable list functions, and the two renderers' line loops become pure Lean
functions.  The loop of `_parse_markdown_to_flowables` advances its cursor by
at least one line per iteration, so it is modelled with an explicit fuel equal
to the number of lines; fuel sufficiency is proved below.
-/

namespace PdfGen

/-- Python's default `str.strip` character class (ASCII whitespace). -/
def isPySpace (c : Char) : Bool :=
  (c == ' ') || (c == '\t') || (c == '\n') || (c == '\r') ||
    (c == '\x0b') || (c == '\x0c')

/-- Python `s.strip()` on a list of characters. -/
def pstripL (cs : List Char) : List Char :=
  ((cs.dropWhile isPySpace).reverse.dropWhile isPySpace).reverse

/-- Python `s.split(sep)` for a one-character separator: keeps empty fields,
returns `[[]]` on empty input. -/
def splitOnChar (sep : Char) : List Char → List (List Char)
  | [] => [[]]
  | c :: rest =>
    if c == sep then [] :: splitOnChar sep rest
    else
      match splitOnChar sep rest with
      | [] => [[c]]
      | h :: t => (c :: h) :: t

/-- Helper `startsW pat cs` is Python `cs.startswith(pat)` on character lists. -/
def startsW : List Char → List Char → Bool
  | [], _ => true
  | _ :: _, [] => false
  | p :: ps, c :: cs => (p == c) && startsW ps cs

/-- Helper `beginsWith p cs` is Python `"".join(cs).startswith(p)`. -/
def beginsWith (p : String) (cs : List Char) : Bool :=
  startsW p.toList cs

/-- Python `"**" in line`: two adjacent asterisks occur somewhere. -/
def hasSS : List Char → Bool
  | [] => false
  | [_] => false
  | a :: b :: rest => ((a == '*') && (b == '*')) || hasSS (b :: rest)

/-- Split a character list at the first occurrence of `**`: returns the part
before the `**` and the part after it, or `none` if no `**` occurs. -/
def splitAtSS : List Char → Option (List Char × List Char)
  | [] => none
  | [_] => none
  | a :: b :: t =>
    if (a == '*') && (b == '*') then some ([], t)
    else (splitAtSS (b :: t)).map (fun p => (a :: p.1, p.2))

/-- One fuel step per replaced `**...**` pair.  Mirrors Python's
`re.sub(r"\*\*(.+?)\*\*", r"<b>\1</b>", line)`: the leftmost `**` opens a
match, the non-greedy `.+?` means the closing `**` is the first one at least
one character later, and if the leftmost `**` has no such closer then no match
exists anywhere in the remainder. -/
def boldSubF : Nat → List Char → List Char
  | 0, cs => cs
  | fuel + 1, cs =>
    match splitAtSS cs with
    | none => cs
    | some (pre, afterOpen) =>
      match afterOpen with
      | [] => cs
      | c :: t =>
        match splitAtSS t with
        | none => cs
        | some (inner, afterClose) =>
          pre ++ ('<' :: 'b' :: '>' :: (c :: inner)) ++
            ('<' :: '/' :: 'b' :: '>' :: boldSubF fuel afterClose)

/-- Python `re.sub(r"\*\*(.+?)\*\*", r"<b>\1</b>", line)`: each replacement
consumes at least five characters, so `cs.length` steps of fuel suffice. -/
def boldSub (cs : List Char) : List Char :=
  boldSubF cs.length cs

/-- Python `line.startswith("- ") or line.startswith("* ")`. -/
def isBulletL (cs : List Char) : Bool :=
  beginsWith "- " cs || beginsWith "* " cs

/-- The numbered-list marker `^\d+\. `: if the line starts with one or more
ASCII digits followed by `". "`, return the remainder, else `none`. -/
def numSplit (cs : List Char) : Option (List Char) :=
  if (cs.takeWhile Char.isDigit).isEmpty then none
  else
    match cs.dropWhile Char.isDigit with
    | '.' :: ' ' :: t => some t
    | _ => none

/-- Python `re.match(r"^\d+\. ", line)` viewed as a Boolean test. -/
def isNumL (cs : List Char) : Bool :=
  (numSplit cs).isSome

/-- Python `re.sub(r"^\d+\. ", "", line)`: strip the anchored numeric marker
once, or leave the line unchanged when it does not match. -/
def numStrip (cs : List Char) : List Char :=
  (numSplit cs).getD cs

/-- The character class `[-:\s|]` of the table-separator regex. -/
def sepChar (c : Char) : Bool :=
  (c == '-') || (c == ':') || isPySpace c || (c == '|')

/-- Predicate `sepBody xs` holds when `xs` is a (possibly empty) run of class
characters followed by a final `|` — the `[-:\s|]*\|$` tail of the
table-separator regex. -/
def sepBody : List Char → Bool
  | [] => false
  | [c] => c == '|'
  | c :: r :: rs => sepChar c && sepBody (r :: rs)

/-- Python `re.match(r"^\|[-:\s|]+\|$", row_line)`: an opening `|`, at least
one class character, then a class-character run ending in the closing `|`. -/
def isSepLine : List Char → Bool
  | '|' :: c :: rest => sepChar c && sepBody rest
  | _ => false

/-- Python `[cell.strip() for cell in row_line.split("|")[1:-1]]`. -/
def cellsOf (cs : List Char) : List (List Char) :=
  (((splitOnChar '|' cs).drop 1).dropLast).map pstripL

/-- One flowable appended by `_parse_markdown_to_flowables`.  `para` carries
the text handed to reportlab's `Paragraph` together with the style-sheet key;
`spacer` carries the two `Spacer` arguments; the two list constructors carry
the already bold-substituted item texts; `table` carries the parsed cell
rows. -/
inductive Flowable
  | para (text : List Char) (style : String)
  | spacer (w h : Nat)
  | bulletList (items : List (List Char))
  | numberList (items : List (List Char))
  | table (rows : List (List (List Char)))
  deriving DecidableEq, Repr

/-- Returns `true` exactly on the `table` constructor. -/
def Flowable.isTable : Flowable → Bool
  | .table _ => true
  | _ => false

/-- Returns `true` exactly on the `bulletList` constructor. -/
def Flowable.isBullets : Flowable → Bool
  | .bulletList _ => true
  | _ => false

/-- One iteration of the `while i < len(lines)` loop of
`_parse_markdown_to_flowables`, parameterised by the continuation `recur`
applied to the lines that remain after this iteration.  The branch order is
exactly the source's `if`/`elif` chain: blank line, the three heading
prefixes, the `"**" in line` test, bullet list, numbered list, table, and the
final plain-paragraph fallback; the three grouping branches consume the whole
contiguous run at once (`takeWhile`/`dropWhile`), exactly like the inner
`while` loops of the source. -/
def parseStep (recur : List (List Char) → Option (List Flowable))
    (l : List Char) (rest : List (List Char)) : Option (List Flowable) :=
  if pstripL l = [] then
    (recur rest).map (fun out => Flowable.spacer 1 6 :: out)
  else if beginsWith "### " (pstripL l) then
    (recur rest).map
      (fun out => Flowable.para ((pstripL l).drop 4) "Heading3" :: out)
  else if beginsWith "## " (pstripL l) then
    (recur rest).map
      (fun out => Flowable.para ((pstripL l).drop 3) "Heading2" :: out)
  else if beginsWith "# " (pstripL l) then
    (recur rest).map
      (fun out => Flowable.para ((pstripL l).drop 2) "Heading1" :: out)
  else if hasSS (pstripL l) then
    (recur rest).map
      (fun out => Flowable.para (boldSub (pstripL l)) "BodyText" :: out)
  else if isBulletL (pstripL l) then
    (recur ((l :: rest).dropWhile (fun x => isBulletL (pstripL x)))).map
      (fun out =>
        Flowable.bulletList
          (((l :: rest).takeWhile (fun x => isBulletL (pstripL x))).map
            (fun x => boldSub ((pstripL x).drop 2))) :: out)
  else if isNumL (pstripL l) then
    (recur ((l :: rest).dropWhile (fun x => isNumL (pstripL x)))).map
      (fun out =>
        Flowable.numberList
          (((l :: rest).takeWhile (fun x => isNumL (pstripL x))).map
            (fun x => boldSub (numStrip (pstripL x)))) :: out)
  else if beginsWith "|" (pstripL l) then
    (recur ((l :: rest).dropWhile (fun x => beginsWith "|" (pstripL x)))).map
      (fun out =>
        (let rows :=
          ((l :: rest).takeWhile (fun x => beginsWith "|" (pstripL x))).filterMap
            (fun x =>
              if isSepLine (pstripL x) then none else some (cellsOf (pstripL x)))
        if rows = [] then []
        else [Flowable.spacer 1 10, Flowable.table rows, Flowable.spacer 1 10]) ++ out)
  else
    (recur rest).map
      (fun out => Flowable.para (boldSub (pstripL l)) "BodyText" :: out)

/-- The `while i < len(lines)` loop of `_parse_markdown_to_flowables`, with
one unit of fuel per iteration.  Every iteration consumes at least the
current line, so fuel `lines.length` is enough; `none` is returned only on
fuel exhaustion. -/
def parseLinesF : Nat → List (List Char) → Option (List Flowable)
  | _, [] => some []
  | 0, _ :: _ => none
  | fuel + 1, l :: rest => parseStep (parseLinesF fuel) l rest

/-- Function `_parse_markdown_to_flowables` as an `Option`-valued function of the raw
markdown string: `markdown_content.strip().split("\n")` then the loop, with
fuel equal to the number of lines. -/
def parseMarkdownF (md : String) : Option (List Flowable) :=
  parseLinesF (splitOnChar '\n' (pstripL md.toList)).length
    (splitOnChar '\n' (pstripL md.toList))

/-- The loop run on an explicit line list, with its canonical fuel. -/
def parseLines (ls : List (List Char)) : List Flowable :=
  (parseLinesF ls.length ls).getD []

/-- Function `_parse_markdown_to_flowables` as a total function (fuel sufficiency is
proved below, so this loses nothing). -/
def parseMarkdown (md : String) : List Flowable :=
  (parseMarkdownF md).getD []

/-- One element added to the Word document by `render_docx`: either
`doc.add_heading(text, level)` or `doc.add_paragraph(text, style)` (with
`style = none` for a plain paragraph). -/
inductive DocxElem
  | heading (text : List Char) (level : Nat)
  | para (text : List Char) (style : Option String)
  deriving DecidableEq, Repr

/-- The text argument carried by a docx element. -/
def DocxElem.text : DocxElem → List Char
  | .heading t _ => t
  | .para t _ => t

/-- The `while i < len(lines)` loop of `render_docx`: one line per iteration,
blank lines skipped, headings by prefix, list markers stripped, everything
else a plain paragraph.  There is no `**` handling and no `|` handling. -/
def docxLoop : List (List Char) → List DocxElem
  | [] => []
  | l :: rest =>
    if pstripL l = [] then docxLoop rest
    else if beginsWith "### " (pstripL l) then
      DocxElem.heading ((pstripL l).drop 4) 3 :: docxLoop rest
    else if beginsWith "## " (pstripL l) then
      DocxElem.heading ((pstripL l).drop 3) 2 :: docxLoop rest
    else if beginsWith "# " (pstripL l) then
      DocxElem.heading ((pstripL l).drop 2) 1 :: docxLoop rest
    else if isBulletL (pstripL l) then
      DocxElem.para ((pstripL l).drop 2) (some "List Bullet") :: docxLoop rest
    else if isNumL (pstripL l) then
      DocxElem.para (numStrip (pstripL l)) (some "List Number") :: docxLoop rest
    else
      DocxElem.para (pstripL l) none :: docxLoop rest

/-- The document-content part of `render_docx`: the centered title heading at
level 0, then the loop over `markdown.split("\n")` (no global strip). -/
def docxRender (title markdown : String) : List DocxElem :=
  DocxElem.heading title.toList 0 :: docxLoop (splitOnChar '\n' markdown.toList)

/-- The colour tokens selected by `get_styles`. -/
structure ThemeColors where
  titleColor : String
  headingColor : String
  textColor : String
  accentColor : String
  deriving DecidableEq, Repr

/-- Source `get_styles`: `modern` and `minimal` have their own palettes, every other
name (the `else` branch) gets the default palette. -/
def get_styles (style_name : String) : ThemeColors :=
  if style_name = "modern" then
    ⟨"#111827", "#374151", "#1f2937", "#3b82f6"⟩
  else if style_name = "minimal" then
    ⟨"black", "black", "#222222", "#666666"⟩
  else
    ⟨"#1a1a1a", "#1a1a1a", "#333333", "#3b82f6"⟩

/-- The style validation at the top of `render_pdf`:
`if style not in ["default", "modern", "minimal"]: style = "default"`. -/
def validateStyle (style : String) : String :=
  if style = "default" || style = "modern" || style = "minimal" then style
  else "default"

/-- The deterministic document content built by `render_pdf` before
`doc.build`: the resolved colour palette together with the title paragraph,
the fixed spacer, and the parsed markdown flowables. -/
def pdfDocumentContent (title markdown style : String) :
    ThemeColors × List Flowable :=
  (get_styles (validateStyle style),
    Flowable.para title.toList "Title" :: Flowable.spacer 1 12 ::
      parseMarkdown markdown)

/-- The fields of the `PdfResult` pydantic model. -/
structure PdfResultM where
  success : Bool
  pdf_id : Option String := none
  filename : Option String := none
  size_bytes : Option Nat := none
  download_url : Option String := none
  error : Option String := none
  deriving DecidableEq, Repr

/-- The fields of the `DocxResult` pydantic model. -/
structure DocxResultM where
  success : Bool
  docx_id : Option String := none
  filename : Option String := none
  size_bytes : Option Nat := none
  download_url : Option String := none
  error : Option String := none
  deriving DecidableEq, Repr

/-- Python `url.replace("tmpfiles.org/", "tmpfiles.org/dl/")`. -/
def urlToDl (u : String) : String :=
  u.replace "tmpfiles.org/" "tmpfiles.org/dl/"

/-- The `try`/`except` skeleton of `render_pdf`.  The pure steps (style
validation, style resolution, markdown parsing, flowable assembly) are total
and are modelled by `pdfDocumentContent`; the three effectful steps —
`doc.build` + the file write, `filepath.stat()`, and the upload — may raise,
and are passed in as `Except` oracles.  Any raised exception lands in the
single `except Exception` handler, which returns a failure record. -/
def render_pdf (title markdown style : String) (pdfId : String)
    (build : Except String Unit) (statSize : Except String Nat)
    (upload : Except String String) : PdfResultM :=
  let _content := pdfDocumentContent title markdown style
  match build with
  | .error e => { success := false, error := some ("PDF generation failed: " ++ e) }
  | .ok _ =>
    match statSize with
    | .error e => { success := false, error := some ("PDF generation failed: " ++ e) }
    | .ok size =>
      match upload with
      | .error e => { success := false, error := some ("PDF generation failed: " ++ e) }
      | .ok url =>
        { success := true
          pdf_id := some pdfId
          filename := some (pdfId ++ ".pdf")
          size_bytes := some size
          download_url := some (urlToDl url)
          error := none }

/-- The `try`/`except` skeleton of `render_docx`: a missing `python-docx`
module has its own handler, and every other exception from the save/stat/
upload steps lands in the generic handler. -/
def render_docx (title markdown : String) (docxId : String)
    (docxAvailable : Bool) (save : Except String Unit)
    (statSize : Except String Nat) (upload : Except String String) :
    DocxResultM :=
  if !docxAvailable then
    { success := false
      error := some "python-docx not installed. Install with: pip install python-docx" }
  else
    let _content := docxRender title markdown
    match save with
    | .error e => { success := false, error := some ("DOCX generation failed: " ++ e) }
    | .ok _ =>
      match statSize with
      | .error e => { success := false, error := some ("DOCX generation failed: " ++ e) }
      | .ok size =>
        match upload with
        | .error e => { success := false, error := some ("DOCX generation failed: " ++ e) }
        | .ok url =>
          { success := true
            docx_id := some docxId
            filename := some (docxId ++ ".docx")
            size_bytes := some size
            download_url := some (urlToDl url)
            error := none }

/-! ### Fuel lemmas for the paginated parser loop -/

theorem length_dropWhile_le' {α : Type} (p : α → Bool) (l : List α) :
    (l.dropWhile p).length ≤ l.length := by
  induction l with
  | nil => simp
  | cons a l ih =>
    rw [List.dropWhile_cons]
    split
    · exact Nat.le_succ_of_le ih
    · exact le_rfl

theorem length_dropWhile_cons_le {α : Type} (p : α → Bool) (l : α)
    (rest : List α) (h : p l = true) :
    ((l :: rest).dropWhile p).length ≤ rest.length := by
  rw [List.dropWhile_cons, if_pos h]
  exact length_dropWhile_le' p rest

/-- The loop of `_parse_markdown_to_flowables` terminates within one fuel
unit per input line: with fuel `ls.length` it always produces a result. -/
theorem parseLinesF_isSome :
    ∀ (fuel : Nat) (ls : List (List Char)), ls.length ≤ fuel →
      (parseLinesF fuel ls).isSome = true := by
  intro fuel
  induction fuel with
  | zero =>
    intro ls h
    cases ls with
    | nil => rfl
    | cons l rest => simp at h
  | succ f ih =>
    intro ls h
    cases ls with
    | nil => rfl
    | cons l rest =>
      have hr : rest.length ≤ f := Nat.le_of_succ_le_succ (by simpa using h)
      rw [parseLinesF]
      unfold parseStep
      split
      · simpa only [Option.isSome_map'] using ih rest hr
      split
      · simpa only [Option.isSome_map'] using ih rest hr
      split
      · simpa only [Option.isSome_map'] using ih rest hr
      split
      · simpa only [Option.isSome_map'] using ih rest hr
      split
      · simpa only [Option.isSome_map'] using ih rest hr
      split
      · rename_i hb
        simp only [Option.isSome_map']
        exact ih _ (le_trans (length_dropWhile_cons_le _ _ _ hb) hr)
      split
      · rename_i hn
        simp only [Option.isSome_map']
        exact ih _ (le_trans (length_dropWhile_cons_le _ _ _ hn) hr)
      split
      · rename_i ht
        simp only [Option.isSome_map']
        exact ih _ (le_trans (length_dropWhile_cons_le _ _ _ ht) hr)
      · simpa only [Option.isSome_map'] using ih rest hr

/-- The result of the loop does not depend on the fuel, as long as the fuel
covers the number of lines. -/
theorem parseLinesF_congr :
    ∀ (f : Nat) (ls : List (List Char)) (g : Nat), ls.length ≤ f →
      ls.length ≤ g → parseLinesF f ls = parseLinesF g ls := by
  intro f
  induction f with
  | zero =>
    intro ls g hf hg
    cases ls with
    | nil => cases g <;> rfl
    | cons l rest => simp at hf
  | succ f ih =>
    intro ls g hf hg
    cases ls with
    | nil => cases g <;> rfl
    | cons l rest =>
      cases g with
      | zero => simp at hg
      | succ g =>
        have hrf : rest.length ≤ f := Nat.le_of_succ_le_succ (by simpa using hf)
        have hrg : rest.length ≤ g := Nat.le_of_succ_le_succ (by simpa using hg)
        have hplain : parseLinesF f rest = parseLinesF g rest := ih rest g hrf hrg
        have hgrp : ∀ p : List Char → Bool, p l = true →
            parseLinesF f ((l :: rest).dropWhile p) =
              parseLinesF g ((l :: rest).dropWhile p) := fun p hp =>
          ih _ g (le_trans (length_dropWhile_cons_le _ _ _ hp) hrf)
            (le_trans (length_dropWhile_cons_le _ _ _ hp) hrg)
        rw [parseLinesF, parseLinesF]
        unfold parseStep
        by_cases h1 : pstripL l = []
        · rw [if_pos h1, if_pos h1, hplain]
        rw [if_neg h1, if_neg h1]
        by_cases h2 : beginsWith "### " (pstripL l) = true
        · rw [if_pos h2, if_pos h2, hplain]
        rw [if_neg h2, if_neg h2]
        by_cases h3 : beginsWith "## " (pstripL l) = true
        · rw [if_pos h3, if_pos h3, hplain]
        rw [if_neg h3, if_neg h3]
        by_cases h4 : beginsWith "# " (pstripL l) = true
        · rw [if_pos h4, if_pos h4, hplain]
        rw [if_neg h4, if_neg h4]
        by_cases h5 : hasSS (pstripL l) = true
        · rw [if_pos h5, if_pos h5, hplain]
        rw [if_neg h5, if_neg h5]
        by_cases h6 : isBulletL (pstripL l) = true
        · rw [if_pos h6, if_pos h6, hgrp _ h6]
        rw [if_neg h6, if_neg h6]
        by_cases h7 : isNumL (pstripL l) = true
        · rw [if_pos h7, if_pos h7, hgrp _ h7]
        rw [if_neg h7, if_neg h7]
        by_cases h8 : beginsWith "|" (pstripL l) = true
        · rw [if_pos h8, if_pos h8, hgrp _ h8]
        rw [if_neg h8, if_neg h8, hplain]

/-- Any sufficient fuel computes the canonical parse. -/
theorem parseLinesF_eq_parseLines (fuel : Nat) (ls : List (List Char))
    (h : ls.length ≤ fuel) : parseLinesF fuel ls = some (parseLines ls) := by
  have h1 := parseLinesF_congr fuel ls ls.length h le_rfl
  have h2 := parseLinesF_isSome ls.length ls le_rfl
  unfold parseLines
  cases hx : parseLinesF ls.length ls with
  | none => rw [hx] at h2; simp at h2
  | some out => rw [h1, hx]; rfl

/-- A blank line is consumed on its own: it appends one `Spacer(1, 6)` and
the loop continues with the remaining lines.  In particular a blank line can
never be consumed by the list or table continuation predicates. -/
theorem parseLines_blank_cons (l : List Char) (rest : List (List Char))
    (h : pstripL l = []) :
    parseLines (l :: rest) = Flowable.spacer 1 6 :: parseLines rest := by
  unfold parseLines
  rw [show (l :: rest).length = rest.length + 1 from rfl, parseLinesF]
  unfold parseStep
  rw [if_pos h, parseLinesF_eq_parseLines rest.length rest le_rfl]
  rfl

/-! ### Lemmas about the inline bold substitution and `**` detection -/

theorem splitAtSS_eq_none : ∀ cs : List Char, hasSS cs = false → splitAtSS cs = none
  | [], _ => rfl
  | [_], _ => rfl
  | a :: b :: t, h => by
    simp only [hasSS, Bool.or_eq_false_iff] at h
    rw [splitAtSS, if_neg (by simp [h.1]), splitAtSS_eq_none (b :: t) h.2]
    rfl

theorem hasSS_cons_of_ne (a : Char) (cs : List Char) (ha : (a == '*') = false) :
    hasSS (a :: cs) = hasSS cs := by
  cases cs with
  | nil => rfl
  | cons b t => simp [hasSS, ha]

theorem hasSS_cons_cons_of_snd_ne (a b : Char) (t : List Char)
    (hb : (b == '*') = false) : hasSS (a :: b :: t) = hasSS t := by
  rw [hasSS, hb, Bool.and_false, Bool.false_or, hasSS_cons_of_ne b t hb]

theorem hasSS_append_of_ne (pre t : List Char)
    (h : ∀ c ∈ pre, (c == '*') = false) :
    hasSS (pre ++ t) = hasSS t := by
  induction pre with
  | nil => rfl
  | cons a pr ih =>
    rw [List.cons_append, hasSS_cons_of_ne a _ (h a (List.mem_cons_self a pr))]
    exact ih (fun c hc => h c (List.mem_cons_of_mem a hc))

theorem hasSS_eq_false_of_all_ne :
    ∀ cs : List Char, (∀ c ∈ cs, (c == '*') = false) → hasSS cs = false
  | [], _ => rfl
  | [_], _ => rfl
  | a :: b :: t, h => by
    rw [hasSS, h a (by simp), Bool.false_and, Bool.false_or]
    exact hasSS_eq_false_of_all_ne (b :: t)
      (fun c hc => h c (List.mem_cons_of_mem a hc))

/-- Text without any `**` is left unchanged by the bold substitution. -/
theorem boldSub_of_no_ss (cs : List Char) (h : hasSS cs = false) :
    boldSub cs = cs := by
  unfold boldSub
  cases cs with
  | nil => rfl
  | cons a t =>
    rw [show (a :: t).length = t.length + 1 from rfl, boldSubF,
      splitAtSS_eq_none _ h]

/-! ### Lemmas about line-prefix tests -/

theorem startsW_exists : ∀ (p cs : List Char), startsW p cs = true → ∃ t, cs = p ++ t
  | [], cs, _ => ⟨cs, rfl⟩
  | _ :: _, [], h => by simp [startsW] at h
  | a :: ps, c :: cs, h => by
    simp only [startsW, Bool.and_eq_true, beq_iff_eq] at h
    obtain ⟨t, ht⟩ := startsW_exists ps cs h.2
    exact ⟨t, by rw [ht, h.1]; rfl⟩

theorem numSplit_eq_some (s t : List Char) (h : numSplit s = some t) :
    s = s.takeWhile Char.isDigit ++ ('.' :: ' ' :: t) := by
  unfold numSplit at h
  split at h
  · exact absurd h (by simp)
  · split at h
    · rename_i heq
      injection h with h
      subst h
      conv_lhs => rw [← List.takeWhile_append_dropWhile Char.isDigit s]
      rw [heq]
    · exact absurd h (by simp)

/-! ### Lemmas about the table-separator test -/

theorem sepChar_ne_star (c : Char) (h : sepChar c = true) : (c == '*') = false := by
  cases hc : c == '*'
  · rfl
  · rw [show c = '*' from eq_of_beq hc] at h
    exact absurd h (by decide)

theorem sepBody_ne_star :
    ∀ xs : List Char, sepBody xs = true → ∀ c ∈ xs, (c == '*') = false
  | [], h, _, hc => by simp at hc
  | [c'], h, c, hc => by
    simp only [List.mem_singleton] at hc
    subst hc
    rw [sepBody] at h
    rw [show c = '|' from eq_of_beq h]
    rfl
  | a :: b :: t, h, c, hc => by
    rw [sepBody] at h
    simp only [Bool.and_eq_true] at h
    rcases List.mem_cons.mp hc with rfl | hc2
    · exact sepChar_ne_star _ h.1
    · exact sepBody_ne_star (b :: t) h.2 c hc2

theorem isSepLine_inv (s : List Char) (h : isSepLine s = true) :
    ∃ c rest, s = '|' :: c :: rest ∧ sepChar c = true ∧ sepBody rest = true := by
  unfold isSepLine at h
  split at h
  · rename_i c rest
    simp only [Bool.and_eq_true] at h
    exact ⟨c, rest, rfl, h.1, h.2⟩
  · simp at h

/-- A separator line contains no asterisk at all, hence no `**`. -/
theorem isSepLine_no_ss (s : List Char) (h : isSepLine s = true) :
    hasSS s = false := by
  obtain ⟨c, rest, rfl, hc, hb⟩ := isSepLine_inv s h
  refine hasSS_eq_false_of_all_ne _ ?_
  intro x hx
  rcases List.mem_cons.mp hx with rfl | hx
  · rfl
  rcases List.mem_cons.mp hx with rfl | hx
  · exact sepChar_ne_star _ hc
  · exact sepBody_ne_star rest hb x hx

/-! ### takeWhile / dropWhile over a fully-matching run -/

theorem takeWhile_append_all {α : Type} (p : α → Bool) :
    ∀ (xs ys : List α), (∀ x ∈ xs, p x = true) →
      (xs ++ ys).takeWhile p = xs ++ ys.takeWhile p
  | [], _, _ => rfl
  | a :: xs, ys, h => by
    rw [List.cons_append, List.takeWhile_cons, if_pos (h a (by simp)),
      takeWhile_append_all p xs ys (fun x hx => h x (List.mem_cons_of_mem a hx))]
    rfl

theorem dropWhile_append_all {α : Type} (p : α → Bool) :
    ∀ (xs ys : List α), (∀ x ∈ xs, p x = true) →
      (xs ++ ys).dropWhile p = ys.dropWhile p
  | [], _, _ => rfl
  | a :: xs, ys, h => by
    rw [List.cons_append, List.dropWhile_cons, if_pos (h a (by simp))]
    exact dropWhile_append_all p xs ys (fun x hx => h x (List.mem_cons_of_mem a hx))

/-! ### Lemmas about the flow (DOCX) renderer loop -/

/-- C2 (corrected, amended claim): a blank line contributes nothing to the
flow output, but a line whose stripped text starts with `|` is NOT dropped:
it falls through every branch of `render_docx` and becomes a plain
paragraph carrying the literal line text. -/
theorem docxLoop_blank_bar (l : List Char) (rest : List (List Char)) :
    (pstripL l = [] → docxLoop (l :: rest) = docxLoop rest) ∧
    (beginsWith "|" (pstripL l) = true →
      docxLoop (l :: rest) = DocxElem.para (pstripL l) none :: docxLoop rest) := by
  constructor
  · intro h
    rw [docxLoop, if_pos h]
  · intro h
    obtain ⟨t, ht⟩ := startsW_exists _ _ h
    rw [show ("|".toList : List Char) ++ t = '|' :: t from rfl] at ht
    rw [docxLoop, ht]
    rw [if_neg (by simp), if_neg (by simp [show beginsWith "### " ('|' :: t) = false from rfl]),
      if_neg (by simp [show beginsWith "## " ('|' :: t) = false from rfl]),
      if_neg (by simp [show beginsWith "# " ('|' :: t) = false from rfl]),
      if_neg (by simp [show isBulletL ('|' :: t) = false from rfl]),
      if_neg (by simp [show isNumL ('|' :: t) = false from rfl])]

/-- C10 (confirmed): the flow renderer never performs inline bold
processing: a nonblank line containing `**` produces exactly one flow
element, and that element's text still contains the `**` verbatim (the only
characters removed are the heading/list markers, which can never overlap a
`**`). -/
theorem docxLoop_keeps_stars (l : List Char) (rest : List (List Char))
    (hne : pstripL l ≠ []) (hss : hasSS (pstripL l) = true) :
    ∃ e, docxLoop (l :: rest) = e :: docxLoop rest ∧ hasSS e.text = true := by
  rw [docxLoop, if_neg hne]
  by_cases h3 : beginsWith "### " (pstripL l) = true
  · rw [if_pos h3]
    obtain ⟨t, ht⟩ := startsW_exists _ _ h3
    rw [ht, hasSS_append_of_ne _ _ (by decide)] at hss
    refine ⟨_, rfl, ?_⟩
    rw [ht]
    show hasSS t = true
    exact hss
  rw [if_neg h3]
  by_cases h2 : beginsWith "## " (pstripL l) = true
  · rw [if_pos h2]
    obtain ⟨t, ht⟩ := startsW_exists _ _ h2
    rw [ht, hasSS_append_of_ne _ _ (by decide)] at hss
    refine ⟨_, rfl, ?_⟩
    rw [ht]
    show hasSS t = true
    exact hss
  rw [if_neg h2]
  by_cases h1 : beginsWith "# " (pstripL l) = true
  · rw [if_pos h1]
    obtain ⟨t, ht⟩ := startsW_exists _ _ h1
    rw [ht, hasSS_append_of_ne _ _ (by decide)] at hss
    refine ⟨_, rfl, ?_⟩
    rw [ht]
    show hasSS t = true
    exact hss
  rw [if_neg h1]
  by_cases hb : isBulletL (pstripL l) = true
  · rw [if_pos hb]
    rcases Bool.or_eq_true_iff.mp (by simpa [isBulletL] using hb) with hd | hs
    · obtain ⟨t, ht⟩ := startsW_exists _ _ hd
      rw [ht, hasSS_append_of_ne _ _ (by decide)] at hss
      refine ⟨_, rfl, ?_⟩
      rw [ht]
      show hasSS t = true
      exact hss
    · obtain ⟨t, ht⟩ := startsW_exists _ _ hs
      rw [show ("* ".toList : List Char) ++ t = '*' :: ' ' :: t from rfl] at ht
      rw [ht, hasSS_cons_cons_of_snd_ne _ _ _ (by decide)] at hss
      refine ⟨_, rfl, ?_⟩
      rw [ht]
      show hasSS t = true
      exact hss
  rw [if_neg hb]
  by_cases hn : isNumL (pstripL l) = true
  · rw [if_pos hn]
    obtain ⟨t, htn⟩ := Option.isSome_iff_exists.mp (by simpa [isNumL] using hn)
    have hsh := numSplit_eq_some _ _ htn
    rw [hsh, hasSS_append_of_ne _ _ ?digits,
      hasSS_cons_cons_of_snd_ne _ _ _ (by decide)] at hss
    case digits =>
      intro c hc
      have hd := List.mem_takeWhile_imp hc
      cases hcs : c == '*'
      · rfl
      · rw [show c = '*' from eq_of_beq hcs] at hd
        exact absurd hd (by decide)
    refine ⟨_, rfl, ?_⟩
    show hasSS (numStrip (pstripL l)) = true
    rw [numStrip, htn]
    exact hss
  rw [if_neg hn]
  exact ⟨_, rfl, hss⟩

/-! ### A table block made only of separator lines renders nothing -/

/-- C8 (confirmed): if the scan reaches a contiguous run of `|`-prefixed
lines that are all separator lines (and the run is maximal: the next line,
if any, does not start with `|`), the table branch collects zero data rows,
so the `if table_data` guard appends nothing — no table element and no
surrounding spacers — and parsing continues with the remaining lines. -/
theorem parseLines_sep_run (seps rest : List (List Char))
    (hne : seps ≠ [])
    (hsep : ∀ x ∈ seps, isSepLine (pstripL x) = true)
    (hrest : ∀ r, rest.head? = some r → beginsWith "|" (pstripL r) = false) :
    parseLines (seps ++ rest) = parseLines rest := by
  obtain ⟨s0, stail, rfl⟩ : ∃ a t, seps = a :: t := by
    cases seps with
    | nil => exact absurd rfl hne
    | cons a t => exact ⟨a, t, rfl⟩
  have h0 := hsep s0 (List.mem_cons_self _ _)
  have hss0 : hasSS (pstripL s0) = false := isSepLine_no_ss _ h0
  obtain ⟨c, t, hst, hc, hbdy⟩ := isSepLine_inv _ h0
  rw [hst] at hss0
  have hallbar : ∀ x ∈ s0 :: stail,
      (fun x => beginsWith "|" (pstripL x)) x = true := by
    intro x hx
    obtain ⟨c', t', h', _, _⟩ := isSepLine_inv _ (hsep x hx)
    show beginsWith "|" (pstripL x) = true
    rw [h']
    rfl
  have htake : (s0 :: (stail ++ rest)).takeWhile
        (fun x => beginsWith "|" (pstripL x))
      = (s0 :: stail) ++ rest.takeWhile (fun x => beginsWith "|" (pstripL x)) := by
    rw [show s0 :: (stail ++ rest) = (s0 :: stail) ++ rest from rfl]
    exact takeWhile_append_all _ _ _ hallbar
  have hdrop : (s0 :: (stail ++ rest)).dropWhile
        (fun x => beginsWith "|" (pstripL x))
      = rest.dropWhile (fun x => beginsWith "|" (pstripL x)) := by
    rw [show s0 :: (stail ++ rest) = (s0 :: stail) ++ rest from rfl]
    exact dropWhile_append_all _ _ _ hallbar
  have hrt : rest.takeWhile (fun x => beginsWith "|" (pstripL x)) = [] := by
    cases rest with
    | nil => rfl
    | cons r rr => rw [List.takeWhile_cons, if_neg (by simp [hrest r rfl])]
  have hrd : rest.dropWhile (fun x => beginsWith "|" (pstripL x)) = rest := by
    cases rest with
    | nil => rfl
    | cons r rr => rw [List.dropWhile_cons, if_neg (by simp [hrest r rfl])]
  have hrows : (s0 :: stail).filterMap
      (fun x => if isSepLine (pstripL x) then none
        else some (cellsOf (pstripL x))) = [] :=
    List.filterMap_eq_nil_iff.mpr (fun a ha => if_pos (hsep a ha))
  unfold parseLines
  rw [show (s0 :: stail) ++ rest = s0 :: (stail ++ rest) from rfl,
    show (s0 :: (stail ++ rest)).length = (stail ++ rest).length + 1 from rfl,
    parseLinesF]
  unfold parseStep
  rw [hst]
  rw [if_neg (by simp),
    if_neg (by simp [show beginsWith "### " ('|' :: c :: t) = false from rfl]),
    if_neg (by simp [show beginsWith "## " ('|' :: c :: t) = false from rfl]),
    if_neg (by simp [show beginsWith "# " ('|' :: c :: t) = false from rfl]),
    if_neg (by simp [hss0]),
    if_neg (by simp [show isBulletL ('|' :: c :: t) = false from rfl]),
    if_neg (by simp [show isNumL ('|' :: c :: t) = false from rfl]),
    if_pos (show beginsWith "|" ('|' :: c :: t) = true from rfl)]
  simp only [htake, hrt, List.append_nil, hdrop, hrd, hrows]
  simp only [if_true, List.nil_append, Option.map_id']
  rw [parseLinesF_congr (stail ++ rest).length rest rest.length
    (by simp) le_rfl]

end PdfGen


namespace PdfGen

/-! ### Claim theorems -/

/-- C1 counterexample: the single line `- **bold** item` does NOT join a
bullet list — the `"**" in line` test of `_parse_markdown_to_flowables`
fires before the bullet-marker test, so it parses to one plain bold
`Paragraph` with style `BodyText`, and the output contains no bullet-list
flowable at all. -/
theorem bold_bullet_line_is_paragraph_cex :
    parseMarkdown "- **bold** item" =
      [Flowable.para (String.toList "- <b>bold</b> item") "BodyText"] ∧
    (parseMarkdown "- **bold** item").all (fun f => !f.isBullets) = true := by
  decide

/-- C1 (corrected): the generic bold-paragraph test takes priority over the
bullet-prefix test when a line STARTS a block: `- **bold** item` alone
parses to a bold `Paragraph`.  A bullet line containing `**` is consumed as
a `BulletList` item only when it continues a run begun by a bullet line
without `**`, because the inner grouping loop tests only the bullet
marker. -/
theorem bold_test_precedes_bullet_test :
    parseMarkdown "- **bold** item" =
      [Flowable.para (String.toList "- <b>bold</b> item") "BodyText"] ∧
    parseMarkdown "- plain\n- **bold** item" =
      [Flowable.bulletList [String.toList "plain",
        String.toList "<b>bold</b> item"]] := by
  decide

/-- C2 counterexample: a markdown line starting with `|` is NOT dropped by
the flow (DOCX) renderer — it falls through to the plain-paragraph branch
and contributes a paragraph holding the literal line text. -/
theorem table_line_becomes_flow_paragraph_cex :
    docxRender "T" "| a | b |" =
      [DocxElem.heading (String.toList "T") 0,
        DocxElem.para (String.toList "| a | b |") none] ∧
    docxRender "T" "| a | b |" ≠ [DocxElem.heading (String.toList "T") 0] := by
  decide

/-- C3 (confirmed): parsing is total — for every markdown string the loop
finishes within one fuel unit per line and returns some flowable list — and
a nonblank line matching none of the recognised constructs degrades to a
plain `Paragraph` with the bold substitution applied. -/
theorem parse_total_and_degrades :
    (∀ md : String, ∃ bs, parseMarkdownF md = some bs) ∧
    (∀ l : List Char, pstripL l ≠ [] →
      beginsWith "### " (pstripL l) = false →
      beginsWith "## " (pstripL l) = false →
      beginsWith "# " (pstripL l) = false →
      hasSS (pstripL l) = false →
      isBulletL (pstripL l) = false →
      isNumL (pstripL l) = false →
      beginsWith "|" (pstripL l) = false →
      parseLines [l] = [Flowable.para (boldSub (pstripL l)) "BodyText"]) := by
  constructor
  · intro md
    exact Option.isSome_iff_exists.mp
      (parseLinesF_isSome (splitOnChar '\n' (pstripL md.toList)).length _ le_rfl)
  · intro l h0 h3 h2 h1 h5 hb hn hbar
    unfold parseLines
    rw [show ([l] : List (List Char)).length = 0 + 1 from rfl, parseLinesF]
    unfold parseStep
    rw [if_neg h0, if_neg (by simp [h3]), if_neg (by simp [h2]),
      if_neg (by simp [h1]), if_neg (by simp [h5]), if_neg (by simp [hb]),
      if_neg (by simp [hn]), if_neg (by simp [hbar])]
    rfl

/-- C3 witness: an ordinary prose line is parsed (totally) into one plain
body paragraph. -/
theorem parse_total_and_degrades_witness :
    parseLines [String.toList "hello world"] =
      [Flowable.para (boldSub (pstripL (String.toList "hello world"))) "BodyText"] :=
  parse_total_and_degrades.2 (String.toList "hello world") (by decide) (by decide)
    (by decide) (by decide) (by decide) (by decide) (by decide) (by decide)

/-- C4 (confirmed): a theme name outside `default` / `modern` / `minimal`
is validated down to `"default"`, so the resolved palette and the whole
flowable sequence handed to `doc.build` coincide with those for
`"default"`. -/
theorem theme_fallback (title markdown style : String)
    (h1 : style ≠ "default") (h2 : style ≠ "modern") (h3 : style ≠ "minimal") :
    pdfDocumentContent title markdown style =
      pdfDocumentContent title markdown "default" := by
  unfold pdfDocumentContent validateStyle
  rw [if_neg (by simp [h1, h2, h3]), if_pos (by simp)]

/-- C4 witness: the fallback at the concrete invalid theme `"bogus-theme"`. -/
theorem theme_fallback_witness :
    pdfDocumentContent "T" "**hi**" "bogus-theme" =
      pdfDocumentContent "T" "**hi**" "default" :=
  theme_fallback "T" "**hi**" "bogus-theme" (by decide) (by decide) (by decide)

/-- C5 (confirmed): the three-line table input parses to exactly one
`Table` flowable with rows `[["Phase","Duration"],["Discovery","2 weeks"]]`
— the separator line is discarded and each cell is trimmed — surrounded
only by the renderer's fixed decorative spacers. -/
theorem table_example_parse :
    parseMarkdown "| Phase | Duration |\n|-------|----------|\n| Discovery | 2 weeks |" =
      [Flowable.spacer 1 10,
        Flowable.table [[String.toList "Phase", String.toList "Duration"],
          [String.toList "Discovery", String.toList "2 weeks"]],
        Flowable.spacer 1 10] ∧
    (parseMarkdown "| Phase | Duration |\n|-------|----------|\n| Discovery | 2 weeks |").filter
        Flowable.isTable =
      [Flowable.table [[String.toList "Phase", String.toList "Duration"],
        [String.toList "Discovery", String.toList "2 weeks"]]] := by
  decide

/-- C6 (confirmed): the list-grouping example parses to two separate
`BulletList` flowables separated by exactly one `Spacer`, and in general a
blank line never satisfies the bullet continuation predicate and is itself
consumed as one `Spacer(1, 6)`. -/
theorem blank_terminates_list :
    parseMarkdown "- one\n- two\n\n- three" =
      [Flowable.bulletList [String.toList "one", String.toList "two"],
        Flowable.spacer 1 6,
        Flowable.bulletList [String.toList "three"]] ∧
    ∀ (l : List Char) (rest : List (List Char)), pstripL l = [] →
      isBulletL (pstripL l) = false ∧
      parseLines (l :: rest) = Flowable.spacer 1 6 :: parseLines rest := by
  refine ⟨by decide, ?_⟩
  intro l rest h
  exact ⟨by rw [h]; rfl, parseLines_blank_cons l rest h⟩

/-- C6 witness: the general blank-line clause applied to a concrete blank
line followed by a bullet line. -/
theorem blank_terminates_list_witness :
    isBulletL (pstripL ([] : List Char)) = false ∧
    parseLines ([] :: [String.toList "- a"]) =
      Flowable.spacer 1 6 :: parseLines [String.toList "- a"] :=
  blank_terminates_list.2 [] [String.toList "- a"] rfl

/-- C7 (confirmed): on text containing no `**` the bold substitution is the
identity, and hence re-applying it to its own output is also the
identity. -/
theorem inline_format_idempotent (s : String) (h : hasSS s.toList = false) :
    boldSub s.toList = s.toList ∧
    boldSub (boldSub s.toList) = boldSub s.toList := by
  have key := boldSub_of_no_ss s.toList h
  exact ⟨key, by rw [key, key]⟩

/-- C7 witness: idempotence at a concrete `**`-free string. -/
theorem inline_format_idempotent_witness :
    boldSub (String.toList "plain text") = String.toList "plain text" ∧
    boldSub (boldSub (String.toList "plain text")) =
      boldSub (String.toList "plain text") :=
  inline_format_idempotent "plain text" (by decide)

/-- C8 witness: a lone separator line followed by a non-table line renders
nothing for the table block. -/
theorem parseLines_sep_run_witness :
    parseLines ([String.toList "|--|"] ++ [String.toList "next"]) =
      parseLines [String.toList "next"] :=
  parseLines_sep_run [String.toList "|--|"] [String.toList "next"] (by decide)
    (by decide)
    (by intro r hr; injection hr with h; subst h; decide)

/-- C9 (confirmed): both renderers always return a result record — every
failing oracle lands in the `except` handler, which sets `success = false`
with a non-`none` error, and on `success = true` the filename, size and
download URL fields are all populated. -/
theorem renders_return_records (t md sty pid : String)
    (b : Except String Unit) (st : Except String Nat) (up : Except String String)
    (t2 md2 did : String) (av : Bool) (sv : Except String Unit)
    (st2 : Except String Nat) (up2 : Except String String) :
    (((render_pdf t md sty pid b st up).success = false →
        (render_pdf t md sty pid b st up).error ≠ none) ∧
      ((render_pdf t md sty pid b st up).success = true →
        (render_pdf t md sty pid b st up).filename ≠ none ∧
        (render_pdf t md sty pid b st up).size_bytes ≠ none ∧
        (render_pdf t md sty pid b st up).download_url ≠ none)) ∧
    (((render_docx t2 md2 did av sv st2 up2).success = false →
        (render_docx t2 md2 did av sv st2 up2).error ≠ none) ∧
      ((render_docx t2 md2 did av sv st2 up2).success = true →
        (render_docx t2 md2 did av sv st2 up2).filename ≠ none ∧
        (render_docx t2 md2 did av sv st2 up2).size_bytes ≠ none ∧
        (render_docx t2 md2 did av sv st2 up2).download_url ≠ none)) := by
  cases b <;> cases st <;> cases up <;> cases av <;> cases sv <;> cases st2 <;>
    cases up2 <;> simp [render_pdf, render_docx]

/-- C9 witness: a fully successful PDF render has its filename populated,
and a DOCX render with `python-docx` missing reports an error. -/
theorem renders_return_records_witness :
    (render_pdf "t" "m" "default" "id" (Except.ok ()) (Except.ok 5)
        (Except.ok "https://tmpfiles.org/x")).filename ≠ none ∧
    (render_docx "t" "m" "id" false (Except.ok ()) (Except.ok 5)
        (Except.ok "u")).error ≠ none :=
  ⟨((renders_return_records "t" "m" "default" "id" (Except.ok ()) (Except.ok 5)
      (Except.ok "https://tmpfiles.org/x") "t" "m" "id" false (Except.ok ())
      (Except.ok 5) (Except.ok "u")).1.2 rfl).1,
   (renders_return_records "t" "m" "default" "id" (Except.ok ()) (Except.ok 5)
      (Except.ok "https://tmpfiles.org/x") "t" "m" "id" false (Except.ok ())
      (Except.ok 5) (Except.ok "u")).2.1 rfl⟩

/-- C2 witness: a concrete blank line is dropped, and a concrete `|` row
line becomes a literal plain paragraph. -/
theorem docxLoop_blank_bar_witness :
    docxLoop ([] :: [String.toList "x"]) = docxLoop [String.toList "x"] ∧
    docxLoop [String.toList "| a |"] =
      DocxElem.para (String.toList "| a |") none :: docxLoop [] :=
  ⟨(docxLoop_blank_bar [] [String.toList "x"]).1 rfl,
   (docxLoop_blank_bar (String.toList "| a |") []).2 (by decide)⟩

/-- C10 witness: a bullet line containing `**` produces one flow element
whose text still contains the `**` verbatim. -/
theorem docxLoop_keeps_stars_witness :
    ∃ e, docxLoop [String.toList "- **x**"] = e :: docxLoop [] ∧
      hasSS e.text = true :=
  docxLoop_keeps_stars (String.toList "- **x**") [] (by decide) (by decide)

end PdfGen
